import Mathlib

/-
Verification model of the core of the samwho rust-debugger repository.

The Rust sources are shallowly embedded as follows:
- machine words (u64 / usize) are Nat values, reduced modulo 2 ^ 64 exactly
  where the Rust arithmetic wraps;
- the tracee (the debugged process) is a record holding its word-addressed
  memory, its register file, and failure oracles for the ptrace calls
  (peek, poke, getregs, setregs): a ptrace call fails with Errno e exactly
  when the corresponding oracle yields some e, mirroring the errwrap
  discipline of src/safe/mod.rs;
- methods taking &mut self in src/debugger/subordinate.rs are state-passing
  functions returning the updated Subordinate and Tracee together with an
  Except value for the Result, so mutations performed before an early
  return with ? are kept, exactly as in Rust;
- the HashMap of breakpoints (address to saved word) is a function
  Nat -> Option Nat, faithful to get or insert or remove, the only
  operations the source performs on it.
-/

def U64MOD : Nat := 2 ^ 64

/-- The x86-64 register snapshot of src/debugger/registers.rs, field for
field in source order; every field is a u64 modelled as Nat. -/
structure Registers where
  r15 : Nat
  r14 : Nat
  r13 : Nat
  r12 : Nat
  rbp : Nat
  rbx : Nat
  r11 : Nat
  r10 : Nat
  r9 : Nat
  r8 : Nat
  rax : Nat
  rcx : Nat
  rdx : Nat
  rsi : Nat
  rdi : Nat
  orig_rax : Nat
  rip : Nat
  cs : Nat
  eflags : Nat
  rsp : Nat
  ss : Nat
  fs_base : Nat
  gs_base : Nat
  ds : Nat
  es : Nat
  fs : Nat
  gs : Nat
  deriving Repr, DecidableEq

/-- The all-zero register file (Registers::default in Rust). -/
def Registers.zero : Registers :=
  ⟨0, 0, 0, 0, 0, 0, 0, 0, 0, 0, 0, 0, 0, 0, 0, 0, 0, 0, 0, 0, 0, 0, 0, 0, 0, 0, 0⟩

/-- WaitStatus of src/safe/mod.rs (the constructor name Unknwon keeps the
spelling of the source). -/
inductive WaitStatus where
  | stopped (pid : Int) (sig : Int)
  | continued (pid : Int)
  | exited (pid : Int) (status : Int)
  | signaled (pid : Int) (sig : Int)
  | unknwon (pid : Int) (raw : Int)
  deriving Repr, DecidableEq

/-- The error kinds of src/error.rs that the modelled code paths can
produce: Errno from a failed libc call, String for domain failures. -/
inductive DbgError where
  | errno (code : Int)
  | stringE (msg : String)
  deriving Repr, DecidableEq

/-- elf::types::Symbol, restricted to the fields the repository reads:
name, value, size, bind and symtype. STB_WEAK has ELF code 2. -/
structure ElfSymbol where
  name : String
  value : Nat
  size : Nat
  bind : Nat
  symtype : Nat
  deriving Repr, DecidableEq

def STB_WEAK : Nat := 2

/-- The tracee side of the world: its memory (one machine word per
address, as ptrace peek and poke see it), its true register file, and
the failure oracles of the four ptrace data calls. -/
structure Tracee where
  mem : Nat → Nat
  regs : Registers
  peekFail : Nat → Option Int
  pokeFail : Nat → Option Int
  getregsFail : Option Int
  setregsFail : Option Int

/-- ptrace::peek of src/sys/ptrace/mod.rs: the word at addr, or Errno. -/
def ptracePeek (t : Tracee) (addr : Nat) : Except DbgError Nat :=
  match t.peekFail addr with
  | some e => .error (.errno e)
  | none => .ok (t.mem addr)

/-- ptrace::poke of src/sys/ptrace/mod.rs: write a word at addr, or Errno. -/
def ptracePoke (t : Tracee) (addr : Nat) (data : Nat) : Except DbgError Tracee :=
  match t.pokeFail addr with
  | some e => .error (.errno e)
  | none => .ok { t with mem := fun a => if a = addr then data else t.mem a }

/-- ptrace::getregs of src/sys/ptrace/mod.rs. -/
def ptraceGetregs (t : Tracee) : Except DbgError Registers :=
  match t.getregsFail with
  | some e => .error (.errno e)
  | none => .ok t.regs

/-- ptrace::setregs of src/sys/ptrace/mod.rs: push a register file to the
tracee. -/
def ptraceSetregs (t : Tracee) (r : Registers) : Except DbgError Tracee :=
  match t.setregsFail with
  | some e => .error (.errno e)
  | none => .ok { t with regs := r }

/-- The auxiliary vector entries of src/debugger/auxv.rs, one constructor
per variant of enum Entry. -/
inductive AuxvEntry where
  | null
  | programHeaderAddr (v : Nat)
  | programHeaderSize (v : Nat)
  | programHeaderCount (v : Nat)
  | pageSize (v : Nat)
  | baseAddr (v : Nat)
  | flags (v : Nat)
  | entryAddr (v : Nat)
  | uid (v : Nat)
  | euid (v : Nat)
  | gid (v : Nat)
  | egid (v : Nat)
  | platformAddr (v : Nat)
  | hwCap (v : Nat)
  | clockTick (v : Nat)
  | dataCacheBlockSize (v : Nat)
  | instructionCacheBlockSize (v : Nat)
  | unifiedCacheBlockSize (v : Nat)
  | secure (b : Bool)
  | basePlatformAddr (v : Nat)
  | random (v : Nat)
  | hwCap2 (v : Nat)
  | executableAddr (v : Nat)
  | sysinfoHeaderAddr (v : Nat)
  | l1InstructionCacheSize (v : Nat)
  | l1InstructionCacheGeometry (v : Nat)
  | l1DataCacheSize (v : Nat)
  | l1DataCacheGeometry (v : Nat)
  | l2InstructionCacheSize (v : Nat)
  | l2InstructionCacheGeometry (v : Nat)
  | l3InstructionCacheSize (v : Nat)
  | l3InstructionCacheGeometry (v : Nat)
  | ignore
  | unknown (t : Nat) (v : Nat)
  deriving Repr, DecidableEq

/-- Entry::new of src/debugger/auxv.rs: classify a (type, value) pair by
the AT_* constants declared at the top of that file. -/
def AuxvEntry.new (t : Nat) (v : Nat) : AuxvEntry :=
  match t with
  | 0 => .null
  | 3 => .programHeaderAddr v
  | 4 => .programHeaderSize v
  | 5 => .programHeaderCount v
  | 6 => .pageSize v
  | 7 => .baseAddr v
  | 8 => .flags v
  | 9 => .entryAddr v
  | 11 => .uid v
  | 12 => .euid v
  | 13 => .gid v
  | 14 => .egid v
  | 15 => .platformAddr v
  | 16 => .hwCap v
  | 17 => .clockTick v
  | 19 => .dataCacheBlockSize v
  | 20 => .instructionCacheBlockSize v
  | 21 => .unifiedCacheBlockSize v
  | 22 => .ignore
  | 23 => .secure (v ≠ 0)
  | 24 => .basePlatformAddr v
  | 25 => .random v
  | 26 => .hwCap2 v
  | 31 => .executableAddr v
  | 33 => .sysinfoHeaderAddr v
  | 40 => .l1InstructionCacheSize v
  | 41 => .l1InstructionCacheGeometry v
  | 42 => .l1DataCacheSize v
  | 43 => .l1DataCacheGeometry v
  | 44 => .l2InstructionCacheSize v
  | 45 => .l2InstructionCacheGeometry v
  | 46 => .l3InstructionCacheSize v
  | 47 => .l3InstructionCacheGeometry v
  | _ => .unknown t v

/-- A DWARF symbol as recorded by src/debugger/dwarf/mod.rs. -/
structure DwarfSymbol where
  name : String
  low_pc : Nat
  high_pc : Nat
  external : Bool
  deriving Repr, DecidableEq

/-- The subset of gimli AttributeValue shapes the loader inspects. -/
inductive AttrValue where
  | addr (n : Nat)
  | udata (n : Nat)
  | flag (b : Bool)
  | other
  deriving Repr, DecidableEq

/-- A DWARF debugging information entry, abstracted to the tag and the
four attributes the loader of src/debugger/dwarf/mod.rs reads. The
nameAttr field is the resolved string of DW_AT_name when present. -/
structure DieEntry where
  tag : Bool -- true exactly when the tag is DW_TAG_subprogram
  nameAttr : Option String
  lowPcAttr : Option AttrValue
  highPcAttr : Option AttrValue
  externalAttr : Option AttrValue
  deriving Repr, DecidableEq

/-- The symbols table of DebugInfo: a name-keyed map, modelled as an
association list in iteration order. HashMap iteration order is not
specified by Rust; the list order here stands for whatever order the
map iterates in. -/
def SymTable : Type := List (String × DwarfSymbol)

/-- HashMap::get on the symbols table. -/
def lookupTbl (tbl : List (String × DwarfSymbol)) (n : String) : Option DwarfSymbol :=
  match tbl with
  | [] => none
  | (k, v) :: rest => if k = n then some v else lookupTbl rest n

/-- HashMap::insert on the symbols table: replace the value when the key
is present, otherwise add an entry. -/
def insertReplace (tbl : List (String × DwarfSymbol)) (n : String) (s : DwarfSymbol) :
    List (String × DwarfSymbol) :=
  match tbl with
  | [] => [(n, s)]
  | (k, v) :: rest => if k = n then (k, s) :: rest else (k, v) :: insertReplace rest n s

/-- The per-entry step of the DW_TAG_subprogram walk in DebugInfo::new
(src/debugger/dwarf/mod.rs lines 131-171): a Symbol is produced exactly
when the tag is subprogram and DW_AT_name resolves to a string and
DW_AT_low_pc is an Addr and DW_AT_high_pc is a Udata and DW_AT_external
is a Flag; any missing or differently shaped attribute hits a continue. -/
def entrySymbol (e : DieEntry) : Option (String × DwarfSymbol) :=
  if e.tag then
    match e.nameAttr with
    | none => none
    | some n =>
      match e.lowPcAttr with
      | some (.addr l) =>
        match e.highPcAttr with
        | some (.udata h) =>
          match e.externalAttr with
          | some (.flag b) => some (n, ⟨n, l, h, b⟩)
          | _ => none
        | _ => none
      | _ => none
  else none

/-- The whole entry walk of DebugInfo::new: fold the per-entry step over
the entries in document order, inserting into the name-keyed table. -/
def dwarfStep (tbl : List (String × DwarfSymbol)) (e : DieEntry) :
    List (String × DwarfSymbol) :=
  match entrySymbol e with
  | some (n, s) => insertReplace tbl n s
  | none => tbl

def processEntries (entries : List DieEntry) : List (String × DwarfSymbol) :=
  entries.foldl dwarfStep []

/-- DebugInfo::symbol_for_pc (src/debugger/dwarf/mod.rs lines 196-203):
scan the table in iteration order, returning the first symbol with
low_pc <= pc < low_pc + high_pc. -/
def symbolForPc (tbl : List (String × DwarfSymbol)) (pc : Nat) : Option DwarfSymbol :=
  match tbl with
  | [] => none
  | (_, s) :: rest =>
    if s.low_pc ≤ pc ∧ pc < s.low_pc + s.high_pc then some s else symbolForPc rest pc

/-- Modelled from the spec: the first subprogram entry in document order
whose recorded symbol covers pc. The spec sentence for PC coverage says
ties are resolved by first match in document order; this definition is
the spec-side comparison point for that sentence, not code of the
repository. -/
def docOrderCovering (entries : List DieEntry) (pc : Nat) : Option DwarfSymbol :=
  match entries with
  | [] => none
  | e :: rest =>
    match entrySymbol e with
    | some (_, s) =>
      if s.low_pc ≤ pc ∧ pc < s.low_pc + s.high_pc then some s else docOrderCovering rest pc
    | none => docOrderCovering rest pc

/-- The Subordinate of src/debugger/subordinate.rs. The debug_info field
keeps only the symbols table (the part the modelled operations touch);
breakpoints is the HashMap from address to saved original word. -/
structure Subordinate where
  pid : Int
  registers : Registers
  stack : List Nat
  waitStatus : WaitStatus
  breakpoints : Nat → Option Nat
  debugInfo : List (String × DwarfSymbol)
  auxv : List AuxvEntry
  symbols : List ElfSymbol

/-- The word patched over the original during breakpoint installation:
data & (usize::max_value() - 255) | 0xcc. -/
def patchWord (data : Nat) : Nat :=
  data &&& (U64MOD - 1 - 255) ||| 0xcc

/-- Subordinate::breakpoint (src/debugger/subordinate.rs lines 129-138).
Already armed: return Ok without touching anything. Otherwise peek the
original word, poke the patched word, and only then record the entry. -/
def breakpointM (addr : Nat) (s : Subordinate) (t : Tracee) :
    Subordinate × Tracee × Except DbgError Unit :=
  match s.breakpoints addr with
  | some _ => (s, t, .ok ())
  | none =>
    match ptracePeek t addr with
    | .error e => (s, t, .error e)
    | .ok data =>
      match ptracePoke t addr (patchWord data) with
      | .error e => (s, t, .error e)
      | .ok t1 =>
        ({ s with breakpoints := fun a => if a = addr then some data else s.breakpoints a },
         t1, .ok ())

/-- The 8 bytes of a machine word in native endianness (x86-64 is little
endian): usize::to_ne_bytes. -/
def toNeBytes (w : Nat) : List Nat :=
  [w % 256, w / 2 ^ 8 % 256, w / 2 ^ 16 % 256, w / 2 ^ 24 % 256,
   w / 2 ^ 32 % 256, w / 2 ^ 40 % 256, w / 2 ^ 48 % 256, w / 2 ^ 56 % 256]

/-- The inner byte loop of Subordinate::read_bytes: push bytes of one
word, breaking out of this inner loop as soon as the buffer length
equals size. The break leaves the outer word loop running. -/
def pushBytes (acc : List Nat) (bs : List Nat) (size : Nat) : List Nat :=
  match bs with
  | [] => acc
  | b :: rest =>
    let acc1 := acc ++ [b]
    if acc1.length = size then acc1 else pushBytes acc1 rest size

/-- The outer word loop of Subordinate::read_bytes over the given index
list, peeking word i at base + 8 * i. -/
def readBytesLoop (t : Tracee) (base : Nat) (size : Nat) :
    List Nat → List Nat → Except DbgError (List Nat)
  | [], acc => .ok acc
  | i :: rest, acc =>
    match ptracePeek t (base + 8 * i) with
    | .error e => .error e
    | .ok w => readBytesLoop t base size rest (pushBytes acc (toNeBytes w) size)

/-- Subordinate::read_bytes (src/debugger/subordinate.rs lines 99-111):
the outer loop runs for i in 0..(size / 8) + 1. -/
def readBytes (t : Tracee) (base : Nat) (size : Nat) : Except DbgError (List Nat) :=
  readBytesLoop t base size (List.range (size / 8 + 1)) []

/-- The loop of Subordinate::read_words over an index list. -/
def readWordsLoop (t : Tracee) (base : Nat) :
    List Nat → List Nat → Except DbgError (List Nat)
  | [], acc => .ok acc
  | i :: rest, acc =>
    match ptracePeek t (base + 8 * i) with
    | .error e => .error e
    | .ok w => readWordsLoop t base rest (acc ++ [w])

/-- Subordinate::read_words (src/debugger/subordinate.rs lines 113-120):
peek size words at base, base + 8, base + 16, ... -/
def readWords (t : Tracee) (base : Nat) (size : Nat) : Except DbgError (List Nat) :=
  readWordsLoop t base (List.range size) []

/-- usize::from_le_bytes over a byte list: least significant byte first. -/
def fromLeBytes (bs : List Nat) : Nat :=
  bs.foldr (fun b acc => b + 256 * acc) 0

/-- read_u64 of src/debugger/auxv.rs: read_bytes(addr, 8), then assemble
the first 8 bytes little endian (buf.clone_from_slice of bytes[0..8]). -/
def readU64 (t : Tracee) (addr : Nat) : Except DbgError Nat :=
  match readBytes t addr 8 with
  | .error e => .error e
  | .ok bytes => .ok (fromLeBytes (bytes.take 8))

/-- advance_to_next_null_entry of src/debugger/auxv.rs: read words and
advance by 8 until a null word; the returned cursor sits just past the
null. The fuel argument bounds the unbounded Rust loop; running out of
fuel is a modelling artifact reported as a String error. -/
def advanceFuel (t : Tracee) (fuel addr : Nat) : Except DbgError Nat :=
  if _h : fuel = 0 then .error (.stringE "fuel exhausted")
  else
    match readU64 t addr with
    | .error e => .error e
    | .ok v => if v = 0 then .ok (addr + 8) else advanceFuel t (fuel - 1) (addr + 8)
termination_by fuel
decreasing_by omega

/-- The (type, value) pair loop of auxv::read: stop on type AT_NULL,
otherwise classify the pair and advance by 16. Fuel bounds the loop. -/
def auxvLoop (t : Tracee) (fuel addr : Nat) (acc : List AuxvEntry) :
    Except DbgError (List AuxvEntry) :=
  if _h : fuel = 0 then .error (.stringE "fuel exhausted")
  else
    match readU64 t addr with
    | .error e => .error e
    | .ok ty =>
      if ty = 0 then .ok acc
      else
        match readU64 t (addr + 8) with
        | .error e => .error e
        | .ok v => auxvLoop t (fuel - 1) (addr + 16) (acc ++ [AuxvEntry.new ty v])
termination_by fuel
decreasing_by omega

/-- auxv::read (src/debugger/auxv.rs lines 118-142): start at rsp + 8,
skip argv, skip envp, then read typed pairs until AT_NULL. -/
def auxvRead (fuel : Nat) (t : Tracee) (regs : Registers) : Except DbgError (List AuxvEntry) :=
  match advanceFuel t fuel ((regs.rsp + 8) % U64MOD) with
  | .error e => .error e
  | .ok a1 =>
    match advanceFuel t fuel a1 with
    | .error e => .error e
    | .ok a2 => auxvLoop t fuel a2 []

/-- The u64 subtraction rip - 1 of handle_breakpoint, wrapping. -/
def ripDec (x : Nat) : Nat := (x + (U64MOD - 1)) % U64MOD

/-- Subordinate::handle_breakpoint (src/debugger/subordinate.rs lines
188-198): compute rip - 1; when it keys the breakpoint table, remove the
entry, set the snapshot rip back to it, poke the saved word over the
trap byte, and push the registers with setregs. Otherwise do nothing. -/
def handleBreakpoint (s : Subordinate) (t : Tracee) :
    Subordinate × Tracee × Except DbgError Unit :=
  let addr := ripDec s.registers.rip
  match s.breakpoints addr with
  | none => (s, t, .ok ())
  | some data =>
    let s1 : Subordinate :=
      { s with
        breakpoints := fun a => if a = addr then none else s.breakpoints a,
        registers := { s.registers with rip := addr } }
    match ptracePoke t addr data with
    | .error e => (s1, t, .error e)
    | .ok t1 =>
      match ptraceSetregs t1 s1.registers with
      | .error e => (s1, t1, .error e)
      | .ok t2 => (s1, t2, .ok ())

/-- Subordinate::fetch_state (src/debugger/subordinate.rs lines 178-186):
store the wait status; on Stopped re-read the registers, snapshot 16
stack words at rsp, and run breakpoint hit handling. The wait status is
an input since wait() observes the tracee. -/
def fetchState (ws : WaitStatus) (s : Subordinate) (t : Tracee) :
    Subordinate × Tracee × Except DbgError Unit :=
  let s0 := { s with waitStatus := ws }
  match ws with
  | .stopped _ _ =>
    match ptraceGetregs t with
    | .error e => (s0, t, .error e)
    | .ok regs =>
      let s1 := { s0 with registers := regs }
      match readWords t s1.registers.rsp 16 with
      | .error e => (s1, t, .error e)
      | .ok stk => handleBreakpoint { s1 with stack := stk } t
  | _ => (s0, t, .ok ())

/-- Subordinate::shift_symbols (src/debugger/subordinate.rs lines
169-176): add amount to the value of every symbol whose binding is not
STB_WEAK; u64 addition wraps. -/
def shiftSymbols (amount : Nat) (syms : List ElfSymbol) : List ElfSymbol :=
  syms.map fun sym =>
    if sym.bind = STB_WEAK then sym
    else { sym with value := (sym.value + amount) % U64MOD }

/-- The wrapping u64 subtraction a - b. -/
def wsub64 (a b : Nat) : Nat := (a + (U64MOD - b % U64MOD)) % U64MOD

/-- The auxv scan of Subordinate::spawn: the first EntryAddr value, if
any (the for loop breaks at the first match). -/
def findEntryAddr : List AuxvEntry → Option Nat
  | [] => none
  | .entryAddr a :: _ => some a
  | _ :: rest => findEntryAddr rest

/-- The relocation step of Subordinate::spawn (src/debugger/subordinate.rs
lines 62-74): when the auxiliary vector carries an AT_ENTRY value, shift
all symbols by AT_ENTRY - ehdr.entry; otherwise leave them alone. -/
def relocateSymbols (auxv : List AuxvEntry) (fileEntry : Nat) (syms : List ElfSymbol) :
    List ElfSymbol :=
  match findEntryAddr auxv with
  | some e => shiftSymbols (wsub64 e fileEntry) syms
  | none => syms

/-- One hexadecimal digit, as char::to_digit(16) accepts them. -/
def hexDigitVal (c : Char) : Option Nat :=
  if '0' ≤ c ∧ c ≤ '9' then some (c.toNat - '0'.toNat)
  else if 'a' ≤ c ∧ c ≤ 'f' then some (c.toNat - 'a'.toNat + 10)
  else if 'A' ≤ c ∧ c ≤ 'F' then some (c.toNat - 'A'.toNat + 10)
  else none

/-- The digit-accumulation loop of usize::from_str_radix with radix 16:
any non-digit or overflow past usize fails. -/
def parseHexDigits : List Char → Nat → Option Nat
  | [], acc => some acc
  | c :: cs, acc =>
    match hexDigitVal c with
    | some d => if acc * 16 + d < U64MOD then parseHexDigits cs (acc * 16 + d) else none
    | none => none

/-- usize::from_str_radix(s, 16): empty input fails, an optional leading
plus sign is allowed, then at least one digit. (A leading minus sign,
which Rust also tolerates syntactically, is not claim-relevant and is
treated as a non-digit here.) -/
def fromStrRadix16 (s : List Char) : Option Nat :=
  match s with
  | [] => none
  | '+' :: rest => if rest = [] then none else parseHexDigits rest 0
  | _ => parseHexDigits s 0

/-- str::strip_prefix with the literal prefix 0x. -/
def strip0x : List Char → Option (List Char)
  | '0' :: 'x' :: rest => some rest
  | _ => none

/-- Subordinate::symbol (src/debugger/subordinate.rs lines 160-167):
first ELF symbol with the given name. -/
def findElfSymbol (syms : List ElfSymbol) (n : String) : Option ElfSymbol :=
  match syms with
  | [] => none
  | sym :: rest => if sym.name = n then some sym else findElfSymbol rest n

/-- The symbol-name branch of set_breakpoint in src/cli.rs: look the
argument up as an ELF symbol name and arm its value, otherwise report a
String error. -/
def cliSymbolBranch (arg : String) (s : Subordinate) (t : Tracee) :
    Subordinate × Tracee × Except DbgError Unit :=
  match findElfSymbol s.symbols arg with
  | some sym => breakpointM (sym.value % U64MOD) s t
  | none =>
    (s, t, .error (.stringE "couldnt set breakpoint, not a known address or symbol"))

/-- set_breakpoint of src/cli.rs (lines 84-101): only an argument that
starts with 0x is tried as hexadecimal; on a parse failure, or without
the prefix, the whole argument is treated as a symbol name. -/
def cliSetBreakpoint (arg : String) (s : Subordinate) (t : Tracee) :
    Subordinate × Tracee × Except DbgError Unit :=
  match strip0x arg.data with
  | some hexPart =>
    match fromStrRadix16 hexPart with
    | some a => breakpointM a s t
    | none => cliSymbolBranch arg s t
  | none => cliSymbolBranch arg s t

/-- set_breakpoint of src/main.rs (lines 75-91): the whole argument is
tried as hexadecimal first (so a 0x prefix makes the parse fail), then
as a DWARF symbol name whose low_pc is armed. -/
def mainSetBreakpoint (arg : String) (s : Subordinate) (t : Tracee) :
    Subordinate × Tracee × Except DbgError Unit :=
  match fromStrRadix16 arg.data with
  | some a => breakpointM a s t
  | none =>
    match lookupTbl s.debugInfo arg with
    | some sym => breakpointM (sym.low_pc % U64MOD) s t
    | none =>
      (s, t, .error (.stringE "couldnt set breakpoint, not a known address or symbol"))

/- Helper lemmas. -/

/-- The mask of patchWord has no bits below bit 8. -/
theorem mask_testBit_low {i : Nat} (hi : i < 8) : (U64MOD - 1 - 255).testBit i = false := by
  have h : U64MOD - 1 - 255 = 2 ^ 8 * (2 ^ 56 - 1) := by norm_num [U64MOD]
  rw [h, Nat.testBit_mul_pow_two]
  simp [Nat.not_le_of_lt hi]

/-- The low byte of a patched word is exactly the INT3 opcode. -/
theorem patchWord_and_255 (d : Nat) : patchWord d &&& 255 = 0xcc := by
  apply Nat.eq_of_testBit_eq
  intro i
  simp only [patchWord, Nat.testBit_and, Nat.testBit_or]
  rcases Nat.lt_or_ge i 8 with hi | hi
  · have h255 : (255 : Nat).testBit i = true := by
      have h : (255 : Nat) = 2 ^ 8 - 1 := by norm_num
      rw [h, Nat.testBit_two_pow_sub_one]
      simp [hi]
    simp [mask_testBit_low hi, h255]
  · have h255 : (255 : Nat).testBit i = false := by
      apply Nat.testBit_lt_two_pow
      calc (255 : Nat) < 2 ^ 8 := by norm_num
        _ ≤ 2 ^ i := Nat.pow_le_pow_right (by norm_num) hi
    have hcc : (0xcc : Nat).testBit i = false := by
      apply Nat.testBit_lt_two_pow
      calc (0xcc : Nat) < 2 ^ 8 := by norm_num
        _ ≤ 2 ^ i := Nat.pow_le_pow_right (by norm_num) hi
    simp [h255, hcc]

/-- While a breakpoint word is installed, the byte at offset 0 reads 0xCC. -/
theorem patchWord_mod256 (d : Nat) : patchWord d % 256 = 0xcc := by
  have h := Nat.and_pow_two_sub_one_eq_mod (patchWord d) 8
  calc patchWord d % 256 = patchWord d % 2 ^ 8 := by norm_num
    _ = patchWord d &&& 255 := by rw [← h]
    _ = 0xcc := patchWord_and_255 d

/-- When every peek succeeds, the read_words loop returns the memory
words at the indexed addresses. -/
theorem readWordsLoop_ok (t : Tracee) (base : Nat)
    (h : t.peekFail = fun _ => none) :
    ∀ idxs acc, readWordsLoop t base idxs acc
      = .ok (acc ++ idxs.map fun i => t.mem (base + 8 * i)) := by
  intro idxs
  induction idxs with
  | nil => intro acc; simp [readWordsLoop]
  | cons i rest ih =>
    intro acc
    simp [readWordsLoop, ptracePeek, h, ih]

/-- When every peek succeeds, read_words returns exactly size words. -/
theorem readWords_ok (t : Tracee) (base size : Nat)
    (h : t.peekFail = fun _ => none) :
    readWords t base size = .ok ((List.range size).map fun i => t.mem (base + 8 * i)) := by
  simp [readWords, readWordsLoop_ok t base h]

/-- read_words on an explicitly built tracee with no peek failures. -/
theorem readWords_allok (mem : Nat → Nat) (regs : Registers)
    (pof : Nat → Option Int) (gf sf : Option Int) (base size : Nat) :
    readWords ⟨mem, regs, fun _ => none, pof, gf, sf⟩ base size
      = .ok ((List.range size).map fun i => mem (base + 8 * i)) :=
  readWords_ok _ base size rfl

/-- The wrapping decrement of a representable successor. -/
theorem ripDec_succ {x : Nat} (h : x + 1 < U64MOD) : ripDec (x + 1) = x := by
  have hU : U64MOD = 2 ^ 64 := rfl
  simp only [ripDec, hU] at *
  omega

/- Concrete fixtures for witnesses. -/

/-- A subordinate with no breakpoints and empty tables. -/
def subFix : Subordinate :=
  ⟨7, Registers.zero, [], .unknwon 0 0, fun _ => none, [], [], []⟩

/-- A fully healthy tracee: every ptrace call succeeds. -/
def traceeFix : Tracee :=
  ⟨fun a => a + 3, Registers.zero, fun _ => none, fun _ => none, none, none⟩

/-- A tracee whose peek at address 4096 fails with errno 5. -/
def traceePeekFailFix : Tracee :=
  ⟨fun _ => 0, Registers.zero, fun a => if a = 4096 then some 5 else none,
   fun _ => none, none, none⟩

/-- A tracee whose poke at address 4096 fails with errno 14. -/
def traceePokeFailFix : Tracee :=
  ⟨fun _ => 0, Registers.zero, fun _ => none,
   fun a => if a = 4096 then some 14 else none, none, none⟩

/-- Claim C4: breakpoint(A) is idempotent: after a successful install the
second call is a no-op success returning the very same state; while
armed, the low byte of tracee memory at A is 0xCC, and the saved word is
the original word, so it preserves original_word with the low byte
masked off. -/
theorem c4_breakpoint_idempotent
    (s : Subordinate) (t : Tracee) (A : Nat)
    (hnew : s.breakpoints A = none)
    (hpeek : t.peekFail A = none) (hpoke : t.pokeFail A = none) :
    ∃ s1 t1,
      breakpointM A s t = (s1, t1, .ok ()) ∧
      breakpointM A s1 t1 = (s1, t1, .ok ()) ∧
      t1.mem A % 256 = 0xcc ∧
      s1.breakpoints A = some (t.mem A) ∧
      (s1.breakpoints A).getD 0 &&& (U64MOD - 1 - 255) = t.mem A &&& (U64MOD - 1 - 255) := by
  refine ⟨{ s with breakpoints := fun a => if a = A then some (t.mem A) else s.breakpoints a },
          { t with mem := fun a => if a = A then patchWord (t.mem A) else t.mem a },
          ?_, ?_, ?_, ?_, ?_⟩
  · simp [breakpointM, hnew, ptracePeek, hpeek, ptracePoke, hpoke]
  · simp [breakpointM]
  · simp [patchWord_mod256]
  · simp
  · simp

/-- Witness for C4 at address 4096 on concrete states. -/
theorem c4_witness :
    ∃ s1 t1,
      breakpointM 4096 subFix traceeFix = (s1, t1, .ok ()) ∧
      breakpointM 4096 s1 t1 = (s1, t1, .ok ()) ∧
      t1.mem 4096 % 256 = 0xcc ∧
      s1.breakpoints 4096 = some (traceeFix.mem 4096) ∧
      (s1.breakpoints 4096).getD 0 &&& (U64MOD - 1 - 255)
        = traceeFix.mem 4096 &&& (U64MOD - 1 - 255) :=
  c4_breakpoint_idempotent subFix traceeFix 4096 rfl rfl rfl

/-- Claim C9: when installation fails with an OS error, on the initial
peek or on the poke of the patched word, breakpoint(addr) returns that
Errno error and leaves the subordinate (in particular the breakpoint
table) and the tracee memory untouched: no half-armed entry exists. -/
theorem c9_install_failure_atomic
    (s : Subordinate) (t : Tracee) (A : Nat) (e : Int)
    (hnew : s.breakpoints A = none)
    (hfail : t.peekFail A = some e ∨ (t.peekFail A = none ∧ t.pokeFail A = some e)) :
    breakpointM A s t = (s, t, .error (.errno e)) := by
  rcases hfail with h | ⟨h1, h2⟩
  · simp [breakpointM, hnew, ptracePeek, h]
  · simp [breakpointM, hnew, ptracePeek, h1, ptracePoke, h2]

/-- Witness for C9: a failing peek at 4096 surfaces errno 5 and changes
nothing. -/
theorem c9_witness :
    breakpointM 4096 subFix traceePeekFailFix
      = (subFix, traceePeekFailFix, .error (.errno 5)) :=
  c9_install_failure_atomic subFix traceePeekFailFix 4096 5 rfl (Or.inl rfl)

/-- Claim C10: when fetch_state observes a Stopped status and rip - 1 is
not a key of the breakpoint table, breakpoint hit handling is a no-op:
the tracee (its memory and its register file) is returned unchanged, the
breakpoint table is unchanged, and the register snapshot is exactly the
freshly fetched register file, rip included. -/
theorem c10_fetch_state_no_hit_noop
    (s : Subordinate) (t : Tracee) (p sig : Int)
    (hget : t.getregsFail = none)
    (hpeek : t.peekFail = fun _ => none)
    (hmiss : s.breakpoints (ripDec t.regs.rip) = none) :
    fetchState (.stopped p sig) s t
      = ({ s with
            waitStatus := WaitStatus.stopped p sig,
            registers := t.regs,
            stack := (List.range 16).map fun i => t.mem (t.regs.rsp + 8 * i) },
         t, .ok ()) := by
  simp [fetchState, ptraceGetregs, hget, readWords_ok t _ 16 hpeek,
        handleBreakpoint, hmiss]

/-- Witness for C10 on concrete states with an empty breakpoint table. -/
theorem c10_witness :
    fetchState (.stopped 1 5) subFix traceeFix
      = ({ subFix with
            waitStatus := WaitStatus.stopped 1 5,
            registers := traceeFix.regs,
            stack := (List.range 16).map fun i =>
              traceeFix.mem (traceeFix.regs.rsp + 8 * i) },
         traceeFix, .ok ()) :=
  c10_fetch_state_no_hit_noop subFix traceeFix 1 5 rfl rfl rfl

/-- On a Stopped status with a successful getregs and stack read,
fetch_state reduces to breakpoint hit handling on the refreshed state. -/
theorem fetchState_stopped_ok (s : Subordinate) (t : Tracee) (p sig : Int)
    (regs : Registers) (stk : List Nat)
    (hget : ptraceGetregs t = .ok regs)
    (hstk : readWords t regs.rsp 16 = .ok stk) :
    fetchState (.stopped p sig) s t
      = handleBreakpoint
          { s with waitStatus := WaitStatus.stopped p sig, registers := regs, stack := stk }
          t := by
  simp [fetchState, hget, hstk]

/-- The hit branch of handle_breakpoint, fully evaluated. -/
theorem handleBreakpoint_hit (s : Subordinate) (t : Tracee) (A data : Nat)
    (hA : ripDec s.registers.rip = A)
    (hhit : s.breakpoints A = some data)
    (hpoke : t.pokeFail A = none)
    (hset : t.setregsFail = none) :
    handleBreakpoint s t
      = ({ s with
            breakpoints := fun a => if a = A then none else s.breakpoints a,
            registers := { s.registers with rip := A } },
         { t with
            mem := fun a => if a = A then data else t.mem a,
            regs := { s.registers with rip := A } },
         .ok ()) := by
  simp [handleBreakpoint, hA, hhit, ptracePoke, hpoke, ptraceSetregs, hset]

/-- Claim C1: install a breakpoint at A, let the tracee trap (it stops
with rip = A + 1), and run fetch_state: the handler removes the entry
(the final table equals the pre-installation one, nothing is
reinstalled), sets the snapshot RIP to A, restores the pre-installation
word at A in tracee memory, and pushes the modified registers to the
tracee. -/
theorem c1_breakpoint_fire_restores
    (s : Subordinate) (t : Tracee) (A : Nat) (r : Registers) (p sig : Int)
    (hnew : s.breakpoints A = none)
    (hpeek : t.peekFail = fun _ => none)
    (hpoke : t.pokeFail = fun _ => none)
    (hget : t.getregsFail = none)
    (hset : t.setregsFail = none)
    (hrip : r.rip = A + 1)
    (hA : A + 1 < U64MOD) :
    ∃ s1 t1,
      breakpointM A s t = (s1, t1, .ok ()) ∧
      (fetchState (.stopped p sig) s1 { t1 with regs := r }).2.2 = .ok () ∧
      (fetchState (.stopped p sig) s1 { t1 with regs := r }).1.breakpoints = s.breakpoints ∧
      (fetchState (.stopped p sig) s1 { t1 with regs := r }).1.registers.rip = A ∧
      (fetchState (.stopped p sig) s1 { t1 with regs := r }).2.1.mem A = t.mem A ∧
      (fetchState (.stopped p sig) s1 { t1 with regs := r }).2.1.regs
        = (fetchState (.stopped p sig) s1 { t1 with regs := r }).1.registers := by
  have hA1 : ripDec r.rip = A := by rw [hrip]; exact ripDec_succ hA
  refine ⟨{ s with breakpoints := fun a => if a = A then some (t.mem A) else s.breakpoints a },
          { t with mem := fun a => if a = A then patchWord (t.mem A) else t.mem a },
          ?_, ?_⟩
  · simp [breakpointM, hnew, ptracePeek, hpeek, ptracePoke, hpoke]
  · have hget2 :
        ptraceGetregs { t with mem := fun a => if a = A then patchWord (t.mem A) else t.mem a,
                               regs := r } = .ok r := by
      simp [ptraceGetregs, hget]
    have hstk :=
      readWords_ok
        { t with mem := fun a => if a = A then patchWord (t.mem A) else t.mem a, regs := r }
        r.rsp 16 hpeek
    have h1 :=
      fetchState_stopped_ok
        { s with breakpoints := fun a => if a = A then some (t.mem A) else s.breakpoints a }
        { t with mem := fun a => if a = A then patchWord (t.mem A) else t.mem a, regs := r }
        p sig r
        ((List.range 16).map fun i =>
          (fun a => if a = A then patchWord (t.mem A) else t.mem a) (r.rsp + 8 * i))
        hget2 hstk
    have hhit :
        ({ s with breakpoints := fun a => if a = A then some (t.mem A) else s.breakpoints a,
                  waitStatus := WaitStatus.stopped p sig,
                  registers := r,
                  stack := (List.range 16).map fun i =>
                    (fun a => if a = A then patchWord (t.mem A) else t.mem a)
                      (r.rsp + 8 * i) } : Subordinate).breakpoints A = some (t.mem A) := by
      simp
    have h2 :=
      handleBreakpoint_hit
        { s with breakpoints := fun a => if a = A then some (t.mem A) else s.breakpoints a,
                 waitStatus := WaitStatus.stopped p sig,
                 registers := r,
                 stack := (List.range 16).map fun i =>
                   (fun a => if a = A then patchWord (t.mem A) else t.mem a) (r.rsp + 8 * i) }
        { t with mem := fun a => if a = A then patchWord (t.mem A) else t.mem a, regs := r }
        A (t.mem A) hA1 hhit (congrFun hpoke A) hset
    have hfetch := h1.trans h2
    rw [hfetch]
    refine ⟨rfl, ?_, rfl, ?_, rfl⟩
    · funext a
      by_cases ha : a = A
      · simp [ha, hnew]
      · simp [ha]
    · simp

/-- A register file stopped one past address 4096, as after an INT3 trap. -/
def regsFix : Registers := { Registers.zero with rip := 4097 }

/-- Witness for C1: install at 4096, trap with rip 4097, fetch state. -/
theorem c1_witness :
    ∃ s1 t1,
      breakpointM 4096 subFix traceeFix = (s1, t1, .ok ()) ∧
      (fetchState (.stopped 1 5) s1 { t1 with regs := regsFix }).2.2 = .ok () ∧
      (fetchState (.stopped 1 5) s1 { t1 with regs := regsFix }).1.breakpoints
        = subFix.breakpoints ∧
      (fetchState (.stopped 1 5) s1 { t1 with regs := regsFix }).1.registers.rip = 4096 ∧
      (fetchState (.stopped 1 5) s1 { t1 with regs := regsFix }).2.1.mem 4096
        = traceeFix.mem 4096 ∧
      (fetchState (.stopped 1 5) s1 { t1 with regs := regsFix }).2.1.regs
        = (fetchState (.stopped 1 5) s1 { t1 with regs := regsFix }).1.registers :=
  c1_breakpoint_fire_restores subFix traceeFix 4096 regsFix 1 5
    rfl rfl rfl rfl rfl rfl (by norm_num [U64MOD])

/-- The wrapping load-bias subtraction agrees with plain subtraction when
nothing wraps. -/
theorem wsub64_of_le {a b : Nat} (ha : a < U64MOD) (hb : b ≤ a) :
    wsub64 a b = a - b := by
  have hU : U64MOD = 2 ^ 64 := rfl
  simp only [wsub64, hU] at *
  have h64 : (2 : Nat) ^ 64 = 18446744073709551616 := by norm_num
  rw [h64] at *
  omega

/-- Indexing a shifted symbol list. -/
theorem shiftSymbols_get (amount : Nat) (syms : List ElfSymbol) (i : Nat) :
    (shiftSymbols amount syms)[i]?
      = (syms[i]?).map fun sym =>
          if sym.bind = STB_WEAK then sym
          else { sym with value := (sym.value + amount) % U64MOD } := by
  simp [shiftSymbols]

/-- Claim C3: after the spawn relocation step, every symbol whose binding
is not weak and whose file value is nonzero has runtime value equal to
file value plus the load bias AT_ENTRY - file entry; weak symbols are
returned unchanged. Stated for the non-wrapping case the claim
describes. -/
theorem c3_symbol_relocation
    (auxv : List AuxvEntry) (fileEntry : Nat) (syms : List ElfSymbol)
    (E : Nat) (i : Nat) (sym : ElfSymbol)
    (hfind : findEntryAddr auxv = some E)
    (hE : E < U64MOD)
    (hfe : fileEntry ≤ E)
    (hi : syms[i]? = some sym) :
    (sym.bind ≠ STB_WEAK → sym.value ≠ 0 → sym.value + (E - fileEntry) < U64MOD →
      (relocateSymbols auxv fileEntry syms)[i]?
        = some { sym with value := sym.value + (E - fileEntry) }) ∧
    (sym.bind = STB_WEAK →
      (relocateSymbols auxv fileEntry syms)[i]? = some sym) := by
  have hw : wsub64 E fileEntry = E - fileEntry := wsub64_of_le hE hfe
  constructor
  · intro hb hv ho
    simp [relocateSymbols, hfind, hw, shiftSymbols_get, hi, hb, Nat.mod_eq_of_lt ho]
  · intro hb
    simp [relocateSymbols, hfind, hw, shiftSymbols_get, hi, hb]

/-- Witness for C3: one weak and one non-weak symbol relocated by bias
0x4000 = 0x5000 - 0x1000. -/
theorem c3_witness :
    ((⟨"main", 0x400, 32, 1, 2⟩ : ElfSymbol).bind ≠ STB_WEAK →
      (⟨"main", 0x400, 32, 1, 2⟩ : ElfSymbol).value ≠ 0 →
      (⟨"main", 0x400, 32, 1, 2⟩ : ElfSymbol).value + (0x5000 - 0x1000) < U64MOD →
      (relocateSymbols [.pageSize 4096, .entryAddr 0x5000] 0x1000
          [⟨"main", 0x400, 32, 1, 2⟩])[0]?
        = some { (⟨"main", 0x400, 32, 1, 2⟩ : ElfSymbol) with
                  value := (⟨"main", 0x400, 32, 1, 2⟩ : ElfSymbol).value + (0x5000 - 0x1000) }) ∧
    ((⟨"main", 0x400, 32, 1, 2⟩ : ElfSymbol).bind = STB_WEAK →
      (relocateSymbols [.pageSize 4096, .entryAddr 0x5000] 0x1000
          [⟨"main", 0x400, 32, 1, 2⟩])[0]? = some ⟨"main", 0x400, 32, 1, 2⟩) :=
  c3_symbol_relocation [.pageSize 4096, .entryAddr 0x5000] 0x1000
    [⟨"main", 0x400, 32, 1, 2⟩] 0x5000 0 ⟨"main", 0x400, 32, 1, 2⟩
    rfl (by norm_num [U64MOD]) (by norm_num) rfl

/-- Claim C7 (amended): symbol_for_pc returns Some exactly when some
symbol of the table covers pc in the half-open interval
[low_pc, low_pc + high_pc); which covering symbol is returned follows
the table iteration order, not DIE document order. -/
theorem c7_symbol_for_pc_iff (tbl : List (String × DwarfSymbol)) (pc : Nat) :
    (symbolForPc tbl pc).isSome
      ↔ ∃ p ∈ tbl, p.2.low_pc ≤ pc ∧ pc < p.2.low_pc + p.2.high_pc := by
  induction tbl with
  | nil => simp [symbolForPc]
  | cons hd rest ih =>
    obtain ⟨k, sym⟩ := hd
    by_cases hc : sym.low_pc ≤ pc ∧ pc < sym.low_pc + sym.high_pc
    · simp [symbolForPc, hc]
    · simp [symbolForPc, hc, ih]

/-- The first subprogram DIE at [100, 110), external. -/
def dieEntryA : DieEntry :=
  ⟨true, some "f", some (.addr 100), some (.udata 10), some (.flag true)⟩

/-- A later subprogram DIE with the same name at [104, 114). -/
def dieEntryB : DieEntry :=
  ⟨true, some "f", some (.addr 104), some (.udata 10), some (.flag false)⟩

/-- Counterexample to C7 as stated: both recorded subprogram entries
cover pc 105, but the name-keyed table collapses same-named entries to
the last one, so the lookup returns the second recorded symbol while the
first match in document order is the first. -/
theorem c7_counterexample :
    symbolForPc (processEntries [dieEntryA, dieEntryB]) 105
        = some ⟨"f", 104, 10, false⟩ ∧
    docOrderCovering [dieEntryA, dieEntryB] 105 = some ⟨"f", 100, 10, true⟩ ∧
    symbolForPc (processEntries [dieEntryA, dieEntryB]) 105
        ≠ docOrderCovering [dieEntryA, dieEntryB] 105 := by
  refine ⟨rfl, rfl, ?_⟩
  decide

/-- A subprogram DIE carrying name, low pc and high pc but no
DW_AT_external attribute. -/
def dieEntryNoExt : DieEntry :=
  ⟨true, some "g", some (.addr 100), some (.udata 10), none⟩

/-- Counterexample to C8 as stated: a subprogram entry with DW_AT_name,
DW_AT_low_pc and DW_AT_high_pc but without DW_AT_external is skipped by
the continue, so no symbol is recorded for it. -/
theorem c8_counterexample :
    processEntries [dieEntryNoExt] = [] ∧
    lookupTbl (processEntries [dieEntryNoExt]) "g" = none :=
  ⟨rfl, rfl⟩

/-- Inserting a key makes it present with the inserted value. -/
theorem lookupTbl_insertReplace_self (tbl : List (String × DwarfSymbol))
    (n : String) (s : DwarfSymbol) :
    lookupTbl (insertReplace tbl n s) n = some s := by
  induction tbl with
  | nil => simp [insertReplace, lookupTbl]
  | cons hd rest ih =>
    obtain ⟨k, v⟩ := hd
    by_cases hk : k = n <;> simp [insertReplace, lookupTbl, hk, ih]

/-- Inserting never drops a present key. -/
theorem lookupTbl_insertReplace_isSome (tbl : List (String × DwarfSymbol))
    (n : String) (s : DwarfSymbol) (m : String)
    (h : (lookupTbl tbl m).isSome) :
    (lookupTbl (insertReplace tbl n s) m).isSome := by
  induction tbl with
  | nil => simp [lookupTbl] at h
  | cons hd rest ih =>
    obtain ⟨k, v⟩ := hd
    by_cases hk : k = n
    · subst hk
      by_cases hm : k = m
      · simp [insertReplace, lookupTbl, hm]
      · simp [insertReplace, lookupTbl, hm] at h ⊢
        exact h
    · by_cases hm : k = m
      · subst hm
        simp [insertReplace, lookupTbl, hk]
      · simp [insertReplace, lookupTbl, hk, hm] at h ⊢
        exact ih h

/-- One loader step never drops a present key. -/
theorem dwarfStep_isSome (tbl : List (String × DwarfSymbol)) (e : DieEntry)
    (m : String) (h : (lookupTbl tbl m).isSome) :
    (lookupTbl (dwarfStep tbl e) m).isSome := by
  unfold dwarfStep
  rcases he : entrySymbol e with _ | ⟨n, s⟩
  · simpa using h
  · simpa using lookupTbl_insertReplace_isSome tbl n s m h

/-- Folding loader steps never drops a present key. -/
theorem foldl_dwarfStep_isSome (entries : List DieEntry) :
    ∀ (tbl : List (String × DwarfSymbol)) (m : String),
      (lookupTbl tbl m).isSome →
      (lookupTbl (entries.foldl dwarfStep tbl) m).isSome := by
  induction entries with
  | nil => intro tbl m h; simpa using h
  | cons hd rest ih =>
    intro tbl m h
    simpa using ih (dwarfStep tbl hd) m (dwarfStep_isSome tbl hd m h)

/-- Claim C8 (amended): the loader records a Symbol for a subprogram
entry exactly when DW_AT_name, DW_AT_low_pc (address), DW_AT_high_pc
(unsigned offset) and DW_AT_external (flag) are all present; the flag
value is captured in the Symbol, and a symbol under that name survives
the rest of the walk. -/
theorem c8_subprogram_recorded
    (entries : List DieEntry) (e : DieEntry) (n : String) (l h : Nat) (b : Bool)
    (hmem : e ∈ entries)
    (htag : e.tag = true)
    (hname : e.nameAttr = some n)
    (hlow : e.lowPcAttr = some (.addr l))
    (hhigh : e.highPcAttr = some (.udata h))
    (hext : e.externalAttr = some (.flag b)) :
    entrySymbol e = some (n, ⟨n, l, h, b⟩) ∧
    (lookupTbl (processEntries entries) n).isSome := by
  have hes : entrySymbol e = some (n, ⟨n, l, h, b⟩) := by
    simp [entrySymbol, htag, hname, hlow, hhigh, hext]
  refine ⟨hes, ?_⟩
  have key : ∀ (es : List DieEntry) (tbl : List (String × DwarfSymbol)),
      e ∈ es → (lookupTbl (es.foldl dwarfStep tbl) n).isSome := by
    intro es
    induction es with
    | nil => intro tbl hm; cases hm
    | cons hd rest ih =>
      intro tbl hm
      rcases List.mem_cons.mp hm with he | hm2
      · subst he
        have hstep : (lookupTbl (dwarfStep tbl e) n).isSome := by
          unfold dwarfStep
          rw [hes]
          simp [lookupTbl_insertReplace_self]
        simpa using foldl_dwarfStep_isSome rest (dwarfStep tbl e) n hstep
      · simpa using ih (dwarfStep tbl hd) hm2
  exact key entries [] hmem

/-- A fully attributed subprogram DIE used by the C8 witness. -/
def dieEntryFull : DieEntry :=
  ⟨true, some "m", some (.addr 7), some (.udata 3), some (.flag true)⟩

/-- Witness for the amended C8 on a one-entry unit. -/
theorem c8_witness :
    entrySymbol dieEntryFull = some ("m", ⟨"m", 7, 3, true⟩) ∧
    (lookupTbl (processEntries [dieEntryFull]) "m").isSome :=
  c8_subprogram_recorded [dieEntryFull] dieEntryFull "m" 7 3 true
    (List.mem_cons_self _ _) rfl rfl rfl rfl rfl

/-- A string of a constructed character list exposes that list. -/
theorem string_mk_data (l : List Char) : (String.mk l).data = l := rfl

/-- With radix 16, an argument that starts with the two characters 0x
never parses: x is not a hexadecimal digit, so main.rs never reaches
breakpoint through the hexadecimal path for prefixed input. -/
theorem fromStrRadix16_0x (rest : List Char) :
    fromStrRadix16 ('0' :: 'x' :: rest) = none := by
  have h0 : hexDigitVal '0' = some 0 := by decide
  have hx : hexDigitVal 'x' = none := by decide
  have hlt : 0 * 16 + 0 < U64MOD := by norm_num [U64MOD]
  simp [fromStrRadix16, parseHexDigits, h0, hx, hlt]

/-- Claim C6 (amended): in the cli shell, only an argument carrying the
0x prefix is parsed as hexadecimal and armed at the parsed address; an
argument without the prefix is handed to the symbol branch untouched. In
main.rs the whole argument is parsed instead, and there the prefixed
spelling never parses as hexadecimal. So the two spellings are not
interchangeable. -/
theorem c6_break_prefix_behavior
    (s : Subordinate) (t : Tracee) (rest : List Char) (v : Nat)
    (hparse : fromStrRadix16 rest = some v) :
    cliSetBreakpoint (String.mk ('0' :: 'x' :: rest)) s t = breakpointM v s t ∧
    (∀ arg : String, strip0x arg.data = none →
        cliSetBreakpoint arg s t = cliSymbolBranch arg s t) ∧
    mainSetBreakpoint (String.mk rest) s t = breakpointM v s t ∧
    fromStrRadix16 ('0' :: 'x' :: rest) = none := by
  refine ⟨?_, ?_, ?_, fromStrRadix16_0x rest⟩
  · simp [cliSetBreakpoint, string_mk_data, strip0x, hparse]
  · intro arg hstrip
    simp [cliSetBreakpoint, hstrip]
  · simp [mainSetBreakpoint, string_mk_data, hparse]

/-- Witness for the amended C6 with the digits 401234. -/
theorem c6_witness :
    cliSetBreakpoint (String.mk ('0' :: 'x' :: ['4', '0', '1', '2', '3', '4']))
        subFix traceeFix
      = breakpointM 0x401234 subFix traceeFix ∧
    (∀ arg : String, strip0x arg.data = none →
        cliSetBreakpoint arg subFix traceeFix = cliSymbolBranch arg subFix traceeFix) ∧
    mainSetBreakpoint (String.mk ['4', '0', '1', '2', '3', '4']) subFix traceeFix
      = breakpointM 0x401234 subFix traceeFix ∧
    fromStrRadix16 ('0' :: 'x' :: ['4', '0', '1', '2', '3', '4']) = none :=
  c6_break_prefix_behavior subFix traceeFix ['4', '0', '1', '2', '3', '4'] 0x401234
    (by decide)

/-- Counterexample to C6 as stated: with no symbols loaded, b 0x401234
arms address 0x401234 while b 401234 fails with a String error and arms
nothing, so the two spellings do not set the same breakpoint in the cli
shell. -/
theorem c6_counterexample :
    (cliSetBreakpoint "0x401234" subFix traceeFix).1.breakpoints 0x401234
        = some (traceeFix.mem 0x401234) ∧
    (cliSetBreakpoint "0x401234" subFix traceeFix).2.2 = .ok () ∧
    cliSetBreakpoint "401234" subFix traceeFix
        = (subFix, traceeFix,
           .error (.stringE "couldnt set breakpoint, not a known address or symbol")) ∧
    (cliSetBreakpoint "401234" subFix traceeFix).1.breakpoints 0x401234 = none :=
  ⟨rfl, rfl, rfl, rfl⟩

/-- An all-zero memory tracee for the C2 evaluation. -/
def zeroTracee : Tracee :=
  ⟨fun _ => 0, Registers.zero, fun _ => none, fun _ => none, none, none⟩

/-- Claim C2 evaluation at the failing input: read_words(0, 1) returns
exactly one word, but read_bytes(0, 8) returns sixteen bytes, not eight:
the outer loop runs (size / 8) + 1 times and the inner length check can
never fire again once the buffer already holds size bytes, so the whole
extra word at address 8 is appended. -/
theorem c2_read_bytes_overrun :
    readWords zeroTracee 0 1 = .ok [0] ∧
    readBytes zeroTracee 0 8
      = .ok [0, 0, 0, 0, 0, 0, 0, 0, 0, 0, 0, 0, 0, 0, 0, 0] :=
  ⟨rfl, rfl⟩

/-- Little-endian reassembly of the native bytes of a word gives the word
reduced to 64 bits. -/
theorem fromLe_toNe (w : Nat) : fromLeBytes (toNeBytes w) = w % U64MOD := by
  simp only [fromLeBytes, toNeBytes, List.foldr, U64MOD]
  norm_num
  omega

/-- read_bytes of 8 bytes on a tracee with no peek failures: the buffer
holds the full first word followed by the full word one past it. -/
theorem readBytes8_allok (t : Tracee) (hpk : t.peekFail = fun _ => none) (a : Nat) :
    readBytes t a 8
      = .ok (toNeBytes (t.mem a) ++ toNeBytes (t.mem (a + 8))) := by
  have hr : List.range 2 = [0, 1] := rfl
  simp [readBytes, hr, readBytesLoop, ptracePeek, hpk, pushBytes, toNeBytes]

/-- read_u64 on a tracee with no peek failures reads the word at addr. -/
theorem readU64_allok (t : Tracee) (hpk : t.peekFail = fun _ => none) (a : Nat) :
    readU64 t a = .ok (t.mem a % U64MOD) := by
  rw [readU64, readBytes8_allok t hpk a]
  have htake : (toNeBytes (t.mem a) ++ toNeBytes (t.mem (a + 8))).take 8
      = toNeBytes (t.mem a) := by
    simp [toNeBytes]
  simp only [htake, fromLe_toNe]


/-- The synthetic initial stack of the C5 scenario, one word per slot:
argc = 1 at rsp, then argv0, a null, envp0, a null, then the pairs
(AT_ENTRY, X), (AT_PAGESZ, 4096) and the AT_NULL terminator. -/
def auxStackMem (X : Nat) : Nat → Nat := fun a =>
  if a = 0x1000 then 1
  else if a = 0x1008 then 0x2000
  else if a = 0x1010 then 0
  else if a = 0x1018 then 0x3000
  else if a = 0x1020 then 0
  else if a = 0x1028 then 9
  else if a = 0x1030 then X
  else if a = 0x1038 then 6
  else if a = 0x1040 then 4096
  else 0

/-- A stopped tracee exposing the synthetic stack, rsp = 0x1000. -/
def auxTracee (X : Nat) : Tracee :=
  ⟨auxStackMem X, { Registers.zero with rsp := 0x1000 }, fun _ => none,
   fun _ => none, none, none⟩

/-- The readU64 values on the synthetic stack, one per slot. -/
theorem auxRead_at (X : Nat) (_hX : X < U64MOD) (a v : Nat)
    (hv : auxStackMem X a = v) (hvlt : v < U64MOD) :
    readU64 (auxTracee X) a = .ok v := by
  rw [readU64_allok (auxTracee X) rfl a]
  show Except.ok (auxStackMem X a % U64MOD) = Except.ok v
  rw [hv, Nat.mod_eq_of_lt hvlt]

/-- Skipping argv on the synthetic stack: from 0x1008 past the null. -/
theorem auxAdvance1 (X : Nat) (hX : X < U64MOD) :
    advanceFuel (auxTracee X) 8 0x1008 = .ok 0x1018 := by
  have h1008 : readU64 (auxTracee X) 0x1008 = .ok 0x2000 :=
    auxRead_at X hX 0x1008 0x2000 (by norm_num [auxStackMem]) (by norm_num [U64MOD])
  have h1010 : readU64 (auxTracee X) 0x1010 = .ok 0 :=
    auxRead_at X hX 0x1010 0 (by norm_num [auxStackMem]) (by norm_num [U64MOD])
  rw [advanceFuel, h1008]
  norm_num
  rw [advanceFuel, h1010]
  norm_num

/-- Skipping envp on the synthetic stack: from 0x1018 past the null. -/
theorem auxAdvance2 (X : Nat) (hX : X < U64MOD) :
    advanceFuel (auxTracee X) 8 0x1018 = .ok 0x1028 := by
  have h1018 : readU64 (auxTracee X) 0x1018 = .ok 0x3000 :=
    auxRead_at X hX 0x1018 0x3000 (by norm_num [auxStackMem]) (by norm_num [U64MOD])
  have h1020 : readU64 (auxTracee X) 0x1020 = .ok 0 :=
    auxRead_at X hX 0x1020 0 (by norm_num [auxStackMem]) (by norm_num [U64MOD])
  rw [advanceFuel, h1018]
  norm_num
  rw [advanceFuel, h1020]
  norm_num

/-- The typed-pair loop on the synthetic stack. -/
theorem auxLoopRun (X : Nat) (hX : X < U64MOD) :
    auxvLoop (auxTracee X) 8 0x1028 [] = .ok [.entryAddr X, .pageSize 4096] := by
  have h1028 : readU64 (auxTracee X) 0x1028 = .ok 9 :=
    auxRead_at X hX 0x1028 9 (by norm_num [auxStackMem]) (by norm_num [U64MOD])
  have h1030 : readU64 (auxTracee X) 0x1030 = .ok X :=
    auxRead_at X hX 0x1030 X (by norm_num [auxStackMem]) hX
  have h1038 : readU64 (auxTracee X) 0x1038 = .ok 6 :=
    auxRead_at X hX 0x1038 6 (by norm_num [auxStackMem]) (by norm_num [U64MOD])
  have h1040 : readU64 (auxTracee X) 0x1040 = .ok 4096 :=
    auxRead_at X hX 0x1040 4096 (by norm_num [auxStackMem]) (by norm_num [U64MOD])
  have h1048 : readU64 (auxTracee X) 0x1048 = .ok 0 :=
    auxRead_at X hX 0x1048 0 (by norm_num [auxStackMem]) (by norm_num [U64MOD])
  rw [auxvLoop, h1028]
  norm_num [AuxvEntry.new]
  rw [h1030]
  show auxvLoop (auxTracee X) 7 0x1038 [AuxvEntry.entryAddr X]
      = Except.ok [AuxvEntry.entryAddr X, AuxvEntry.pageSize 4096]
  rw [auxvLoop, h1038]
  norm_num [AuxvEntry.new]
  rw [h1040]
  show auxvLoop (auxTracee X) 6 0x1048
      [AuxvEntry.entryAddr X, AuxvEntry.pageSize 4096]
      = Except.ok [AuxvEntry.entryAddr X, AuxvEntry.pageSize 4096]
  rw [auxvLoop, h1048]
  norm_num

/-- auxv::read as the composition of the two skips and the pair loop. -/
theorem auxvRead_eq (fuel : Nat) (t : Tracee) (regs : Registers)
    (a1 a2 : Nat) (res : List AuxvEntry)
    (h1 : advanceFuel t fuel ((regs.rsp + 8) % U64MOD) = .ok a1)
    (h2 : advanceFuel t fuel a1 = .ok a2)
    (h3 : auxvLoop t fuel a2 [] = .ok res) :
    auxvRead fuel t regs = .ok res := by
  simp only [auxvRead, h1, h2, h3]

/-- Claim C5: on the synthetic stack image [argc = 1, argv0, 0, envp0, 0,
AT_ENTRY = X, AT_PAGESZ = 4096, AT_NULL] the auxiliary-vector reader
starts at rsp + 8, skips argv and envp past one null word each, and
returns exactly the two typed entries EntryAddr(X) and PageSize(4096),
in that order. -/
theorem c5_auxv_parse (X : Nat) (hX : X < U64MOD) :
    auxvRead 8 (auxTracee X) (auxTracee X).regs
      = .ok [.entryAddr X, .pageSize 4096] := by
  have hrsp : ((auxTracee X).regs.rsp + 8) % U64MOD = 0x1008 := by
    norm_num [auxTracee, U64MOD]
  refine auxvRead_eq 8 (auxTracee X) (auxTracee X).regs 0x1018 0x1028 _ ?_
    (auxAdvance2 X hX) (auxLoopRun X hX)
  rw [hrsp]
  exact auxAdvance1 X hX

/-- Witness for C5 at entry address 0x401000. -/
theorem c5_witness :
    auxvRead 8 (auxTracee 0x401000) (auxTracee 0x401000).regs
      = .ok [.entryAddr 0x401000, .pageSize 4096] :=
  c5_auxv_parse 0x401000 (by norm_num [U64MOD])
